import Mathlib

/-!
Verification of the packet-sniffer pipeline (src/packetsniffer.py).

The script reads a pcap capture and decodes each frame through
link / network / transport layers, with a per-stage catch-and-continue
dispatcher.  Bytes are modelled as natural numbers below 256; fallible
decoding returns Except over a typed error taxonomy.  The third-party
decoding routines the script calls (dpkt) are absent from src/; following
the design document they are modelled from the spec, each such definition
saying so in its doc comment.
-/

namespace PacketSniffer

/-- Typed decode/read failures of the pipeline. -/
inductive DecodeError where
  | formatError
  | truncatedRecordError
  | shortFrameError
  | shortHeaderError
  | shortSegmentError
  | unsupportedVersionError
  | invalidHeaderLengthError
  deriving DecidableEq, Repr

/-- One captured record: timestamp, captured length, original length and
the captured bytes. -/
structure RawFrame where
  tsSec : Nat
  tsUsec : Nat
  capLen : Nat
  origLen : Nat
  bytes : List Nat
  deriving DecidableEq, Repr

/-- Link-layer frame: destination and source addresses, ether-type,
payload. -/
structure LinkFrame where
  dst : List Nat
  src : List Nat
  etherType : Nat
  payload : List Nat
  deriving DecidableEq, Repr

/-- Modelled from the spec: the from-scratch link-layer decoder replacing
dpkt.ethernet.Ethernet (absent from src/).  Requires at least 14 bytes;
fails with shortFrameError otherwise; addresses are taken verbatim and the
ether-type is big-endian 16-bit. -/
def decodeLink (bs : List Nat) : Except DecodeError LinkFrame :=
  if bs.length < 14 then .error .shortFrameError
  else .ok { dst := bs.take 6
           , src := (bs.drop 6).take 6
           , etherType := bs.getD 12 0 * 256 + bs.getD 13 0
           , payload := bs.drop 14 }

/-- Network-layer packet: version, header length in bytes, total length,
transport protocol identifier, addresses, length-consistency flag and
payload. -/
structure NetworkPacket where
  version : Nat
  headerLen : Nat
  totalLen : Nat
  protocol : Nat
  src : List Nat
  dst : List Nat
  lengthOk : Bool
  payload : List Nat
  deriving DecidableEq, Repr

/-- Modelled from the spec: the from-scratch network-layer decoder
replacing dpkt ip decoding (absent from src/).  The first byte's high
nibble is the version and its low nibble the header length in 32-bit
words; a version other than 4 fails with unsupportedVersionError and
fewer bytes than the declared header length fail with shortHeaderError;
a declared total length exceeding the available bytes is surfaced as a
warning flag, not an error. -/
def decodeNetwork (bs : List Nat) : Except DecodeError NetworkPacket :=
  match bs with
  | [] => .error .shortHeaderError
  | b0 :: _ =>
    if b0 / 16 ≠ 4 then .error .unsupportedVersionError
    else if bs.length < b0 % 16 * 4 then .error .shortHeaderError
    else .ok { version := b0 / 16
             , headerLen := b0 % 16 * 4
             , totalLen := bs.getD 2 0 * 256 + bs.getD 3 0
             , protocol := bs.getD 9 0
             , src := (bs.drop 12).take 4
             , dst := (bs.drop 16).take 4
             , lengthOk := decide (bs.getD 2 0 * 256 + bs.getD 3 0 ≤ bs.length)
             , payload := bs.drop (b0 % 16 * 4) }

/-- Transport-layer segment: ports, sequence numbers, flags byte, the eight
extracted flag booleans, window and payload. -/
structure TransportSegment where
  srcPort : Nat
  dstPort : Nat
  seqNum : Nat
  ackNum : Nat
  flags : Nat
  fin : Bool
  syn : Bool
  rst : Bool
  psh : Bool
  ack : Bool
  urg : Bool
  ece : Bool
  cwr : Bool
  window : Nat
  payload : List Nat
  deriving DecidableEq, Repr

/-- FIN flag, extracted as in the source: (flags & TH_FIN) != 0 with
TH_FIN = 0x01. -/
def fin_flag (f : Nat) : Bool := f &&& 0x01 ≠ 0

/-- SYN flag: (flags & TH_SYN) != 0 with TH_SYN = 0x02. -/
def syn_flag (f : Nat) : Bool := f &&& 0x02 ≠ 0

/-- RST flag: (flags & TH_RST) != 0 with TH_RST = 0x04. -/
def rst_flag (f : Nat) : Bool := f &&& 0x04 ≠ 0

/-- PSH flag: (flags & TH_PUSH) != 0 with TH_PUSH = 0x08. -/
def psh_flag (f : Nat) : Bool := f &&& 0x08 ≠ 0

/-- ACK flag: (flags & TH_ACK) != 0 with TH_ACK = 0x10. -/
def ack_flag (f : Nat) : Bool := f &&& 0x10 ≠ 0

/-- URG flag: (flags & TH_URG) != 0 with TH_URG = 0x20. -/
def urg_flag (f : Nat) : Bool := f &&& 0x20 ≠ 0

/-- ECE flag: (flags & TH_ECE) != 0 with TH_ECE = 0x40. -/
def ece_flag (f : Nat) : Bool := f &&& 0x40 ≠ 0

/-- CWR flag: (flags & TH_CWR) != 0 with TH_CWR = 0x80. -/
def cwr_flag (f : Nat) : Bool := f &&& 0x80 ≠ 0

/-- Rebuild a flags byte from the eight extracted booleans
(FIN = bit 0 through CWR = bit 7). -/
def reconstructFlags (fin syn rst psh ack urg ece cwr : Bool) : Nat :=
  (if fin then 1 else 0) + (if syn then 2 else 0) + (if rst then 4 else 0) +
  (if psh then 8 else 0) + (if ack then 16 else 0) + (if urg then 32 else 0) +
  (if ece then 64 else 0) + (if cwr then 128 else 0)

/-- Modelled from the spec: the from-scratch transport-layer decoder
replacing dpkt tcp decoding (absent from src/).  Fails with
shortSegmentError below 20 bytes; derives the header length from the
4-bit data-offset field (in 32-bit words) and fails with
invalidHeaderLengthError when it is below the minimum or exceeds the
available bytes; the flags byte is at offset 13. -/
def decodeTransport (bs : List Nat) : Except DecodeError TransportSegment :=
  if bs.length < 20 then .error .shortSegmentError
  else
    let hlen := bs.getD 12 0 / 16 * 4
    if hlen < 20 ∨ bs.length < hlen then .error .invalidHeaderLengthError
    else
      let f := bs.getD 13 0
      .ok { srcPort := bs.getD 0 0 * 256 + bs.getD 1 0
          , dstPort := bs.getD 2 0 * 256 + bs.getD 3 0
          , seqNum := ((bs.getD 4 0 * 256 + bs.getD 5 0) * 256 + bs.getD 6 0) * 256 + bs.getD 7 0
          , ackNum := ((bs.getD 8 0 * 256 + bs.getD 9 0) * 256 + bs.getD 10 0) * 256 + bs.getD 11 0
          , flags := f
          , fin := fin_flag f, syn := syn_flag f, rst := rst_flag f
          , psh := psh_flag f, ack := ack_flag f, urg := urg_flag f
          , ece := ece_flag f, cwr := cwr_flag f
          , window := bs.getD 14 0 * 256 + bs.getD 15 0
          , payload := bs.drop hlen }

/-- The per-frame result of the dispatcher: the outcome of each layer,
with none meaning the layer was not attempted because an earlier layer
failed. -/
structure FrameResult where
  link : Except DecodeError LinkFrame
  network : Option (Except DecodeError NetworkPacket)
  transport : Option (Except DecodeError TransportSegment)
  deriving Repr

/-- The dispatcher, mirroring the two try blocks of the main loop
(src/packetsniffer.py lines 11-34): decode the link layer, and on success
feed its payload to the network layer and that payload to the transport
layer, catching each failure into a typed per-layer result instead of
propagating it. -/
def processFrame (raw : RawFrame) : FrameResult :=
  match decodeLink raw.bytes with
  | .error e => ⟨.error e, none, none⟩
  | .ok lf =>
    match decodeNetwork lf.payload with
    | .error e => ⟨.ok lf, some (.error e), none⟩
    | .ok np =>
      match decodeTransport np.payload with
      | .error e => ⟨.ok lf, some (.ok np), some (.error e)⟩
      | .ok ts => ⟨.ok lf, some (.ok np), some (.ok ts)⟩

/-- Byte order of a capture file, determined by its magic number's byte
pattern and governing the interpretation of every later integer field. -/
inductive ByteOrder where
  | littleEndian
  | bigEndian
  deriving DecidableEq, Repr

/-- The recognised pcap magic number in each byte order. -/
def magicBytes : ByteOrder → List Nat
  | .littleEndian => [0xd4, 0xc3, 0xb2, 0xa1]
  | .bigEndian => [0xa1, 0xb2, 0xc3, 0xd4]

/-- Read a 32-bit field from the head of a byte list in the given byte
order, returning the value and the remaining bytes; none when fewer than
four bytes are available. -/
def readU32 (bo : ByteOrder) : List Nat → Option (Nat × List Nat)
  | b0 :: b1 :: b2 :: b3 :: rest =>
      some (match bo with
            | .littleEndian => b0 + b1 * 256 + b2 * 65536 + b3 * 16777216
            | .bigEndian => b3 + b2 * 256 + b1 * 65536 + b0 * 16777216, rest)
  | _ => none

/-- 32-bit encoding of a value in the given byte order. -/
def w32 (bo : ByteOrder) (n : Nat) : List Nat :=
  match bo with
  | .littleEndian => [n % 256, n / 256 % 256, n / 65536 % 256, n / 16777216 % 256]
  | .bigEndian => [n / 16777216 % 256, n / 65536 % 256, n / 256 % 256, n % 256]

/-- Modelled from the spec: one step of the capture reader replacing
dpkt.pcap.Reader iteration (absent from src/), in the byte order the
global header established.  At end of source it reports none; otherwise
it parses a 16-byte record header (timestamp seconds and microseconds,
captured length, original length) and takes captured-length payload
bytes, failing with truncatedRecordError whenever the header is
incomplete or the declared captured length exceeds the remaining
bytes. -/
def readRecord (bo : ByteOrder) (s : List Nat) :
    Except DecodeError (Option (RawFrame × List Nat)) :=
  if s = [] then .ok none
  else
    match readU32 bo s with
    | none => .error .truncatedRecordError
    | some (ts, s1) =>
      match readU32 bo s1 with
      | none => .error .truncatedRecordError
      | some (us, s2) =>
        match readU32 bo s2 with
        | none => .error .truncatedRecordError
        | some (cl, s3) =>
          match readU32 bo s3 with
          | none => .error .truncatedRecordError
          | some (ol, s4) =>
            if cl ≤ s4.length then
              .ok (some (⟨ts, us, cl, ol, s4.take cl⟩, s4.drop cl))
            else .error .truncatedRecordError

/-- Fuelled record iteration: read records until end of source or a reader
error, collecting the frames and the error, if any, that ended the
sequence; nothing is collected past an error. -/
def readFramesFuel (bo : ByteOrder) : Nat → List Nat → List RawFrame × Option DecodeError
  | 0, _ => ([], none)
  | fuel + 1, s =>
    match readRecord bo s with
    | .error e => ([], some e)
    | .ok none => ([], none)
    | .ok (some p) =>
      let q := readFramesFuel bo fuel p.2
      (p.1 :: q.1, q.2)

/-- Modelled from the spec: the lazy frame sequence of the capture reader
(the for-loop source of src/packetsniffer.py line 10), in the byte order
the global header established.  A record consumes at least 16 bytes, so
fuel one more than the source length always suffices. -/
def readFrames (bo : ByteOrder) (s : List Nat) : List RawFrame × Option DecodeError :=
  readFramesFuel bo (s.length + 1) s

/-- Modelled from the spec: validation of the 24-byte pcap global header
(magic number, version, timezone, accuracy, snapshot length, link type)
done by dpkt.pcap.Reader (absent from src/); the magic number's byte
pattern determines the byte order that governs all later integer fields;
fails with formatError when the magic is unrecognised or the header is
incomplete, and returns the byte order and the record area otherwise. -/
def openCapture (s : List Nat) : Except DecodeError (ByteOrder × List Nat) :=
  if s.take 4 = magicBytes .littleEndian ∧ 24 ≤ s.length then
    .ok (.littleEndian, s.drop 24)
  else if s.take 4 = magicBytes .bigEndian ∧ 24 ≤ s.length then
    .ok (.bigEndian, s.drop 24)
  else .error .formatError

/-- Modelled from the spec: the whole capture read, open then iterate in
the byte order the magic selected, as performed by lines 8 and 10 of
src/packetsniffer.py. -/
def readCapture (s : List Nat) : List RawFrame × Option DecodeError :=
  match openCapture s with
  | .error e => ([], some e)
  | .ok (bo, body) => readFrames bo body

/-- A frame a capture file can actually hold: captured length equals the
byte-sequence length and all header fields fit in 32 bits. -/
def wellFormedFrame (fr : RawFrame) : Prop :=
  fr.capLen = fr.bytes.length ∧ fr.tsSec < 4294967296 ∧
    fr.tsUsec < 4294967296 ∧ fr.capLen < 4294967296 ∧ fr.origLen < 4294967296

instance (fr : RawFrame) : Decidable (wellFormedFrame fr) := by
  unfold wellFormedFrame
  infer_instance

/-- Encode one record in the given byte order: 16-byte header then the
captured bytes. -/
def encodeRecord (bo : ByteOrder) (fr : RawFrame) : List Nat :=
  w32 bo fr.tsSec ++ w32 bo fr.tsUsec ++ w32 bo fr.capLen ++
    w32 bo fr.origLen ++ fr.bytes

/-- Encode a capture file in the given byte order from a 20-byte header
remainder and a list of complete records. -/
def encodeCapture (bo : ByteOrder) (hdrRest : List Nat)
    (frames : List RawFrame) : List Nat :=
  magicBytes bo ++ hdrRest ++ (frames.map (encodeRecord bo)).flatten

/-- Access mode a file is opened with. -/
inductive FileMode where
  | readBinary
  | writeBinary
  deriving DecidableEq, Repr

/-- An opened file: its byte contents, the read position and the mode. -/
structure File where
  contents : List Nat
  pos : Nat
  mode : FileMode
  deriving DecidableEq, Repr

/-- Open a file over the given bytes (src/packetsniffer.py line 8 passes
mode rb, that is readBinary). -/
def fopen (bytes : List Nat) (m : FileMode) : File :=
  ⟨bytes, 0, m⟩

/-- Read n bytes from the current position: returns the bytes and the
advanced file; the contents are untouched. -/
def fread (f : File) (n : Nat) : List Nat × File :=
  ((f.contents.drop f.pos).take n, ⟨f.contents, f.pos + n, f.mode⟩)

/-- One whole run of the script over a capture file: open the source in
read-binary mode, read it, parse the records and process every frame.
It returns the per-frame results together with the file as the run leaves
it; the run performs no write operation. -/
def runSniffer (captureBytes : List Nat) : List FrameResult × File :=
  let f0 := fopen captureBytes .readBinary
  let r := fread f0 captureBytes.length
  ((readCapture r.1).1.map processFrame, r.2)

theorem w32_ne_nil (bo : ByteOrder) (n : Nat) (rest : List Nat) :
    w32 bo n ++ rest ≠ [] := by
  cases bo <;> simp [w32]

theorem w32_length (bo : ByteOrder) (n : Nat) : (w32 bo n).length = 4 := by
  cases bo <;> simp [w32]

theorem readU32_w32 (bo : ByteOrder) (n : Nat) (hn : n < 4294967296)
    (rest : List Nat) :
    readU32 bo (w32 bo n ++ rest) = some (n, rest) := by
  cases bo <;>
    · simp only [w32, List.cons_append, List.nil_append, readU32,
        Option.some.injEq, Prod.mk.injEq]
      exact ⟨by omega, trivial⟩

set_option maxRecDepth 4000 in
theorem flags_roundtrip_fin (b : Fin 256) :
    reconstructFlags (fin_flag b.val) (syn_flag b.val) (rst_flag b.val)
      (psh_flag b.val) (ack_flag b.val) (urg_flag b.val) (ece_flag b.val)
      (cwr_flag b.val) = b.val := by
  revert b
  decide

/-- C2: for every transport flags byte value below 256, extracting the
eight booleans FIN..CWR as (flags AND mask) not-zero with FIN = bit 0
through CWR = bit 7 and reconstructing a byte from them reproduces the
original byte. -/
theorem flags_bit_roundtrip (b : Nat) (h : b < 256) :
    reconstructFlags (fin_flag b) (syn_flag b) (rst_flag b)
      (psh_flag b) (ack_flag b) (urg_flag b) (ece_flag b)
      (cwr_flag b) = b :=
  flags_roundtrip_fin ⟨b, h⟩

/-- Witness for C2 at the concrete byte 0x12 (SYN and ACK set). -/
theorem flags_bit_roundtrip_witness :
    reconstructFlags (fin_flag 18) (syn_flag 18) (rst_flag 18)
      (psh_flag 18) (ack_flag 18) (urg_flag 18) (ece_flag 18)
      (cwr_flag 18) = 18 :=
  flags_bit_roundtrip 18 (by decide)

/-- C3: on every input of fewer than 14 bytes, decodeLink fails with
shortFrameError, and the result is determined by the length alone: no
byte of the input is consulted, hence no position at or past the input
length is accessed. -/
theorem decodeLink_short (bs : List Nat) (h : bs.length < 14) :
    decodeLink bs = .error .shortFrameError ∧
      ∀ bs2 : List Nat, bs2.length = bs.length → decodeLink bs2 = decodeLink bs := by
  constructor
  · simp [decodeLink, h]
  · intro bs2 hlen
    simp [decodeLink, h, hlen ▸ h]

/-- Witness for C3 at a concrete 3-byte input. -/
theorem decodeLink_short_witness :
    decodeLink [1, 2, 3] = .error .shortFrameError ∧
      ∀ bs2 : List Nat, bs2.length = ([1, 2, 3] : List Nat).length →
        decodeLink bs2 = decodeLink [1, 2, 3] :=
  decodeLink_short [1, 2, 3] (by decide)

/-- C4: in either byte order, whenever the current record header declares
a captured length exceeding the bytes remaining in the source, the reader
step fails with truncatedRecordError, no partial RawFrame is yielded for
that record, and the frame sequence ends: readFrames returns no frame at
all from that point and reports the error. -/
theorem next_truncated (bo : ByteOrder) (ts us cl ol : Nat) (rest : List Nat)
    (hts : ts < 4294967296) (hus : us < 4294967296) (hcl : cl < 4294967296)
    (hol : ol < 4294967296) (hshort : rest.length < cl) :
    readRecord bo (w32 bo ts ++ (w32 bo us ++ (w32 bo cl ++ (w32 bo ol ++ rest)))) =
        .error .truncatedRecordError ∧
      readFrames bo (w32 bo ts ++ (w32 bo us ++ (w32 bo cl ++ (w32 bo ol ++ rest)))) =
        ([], some .truncatedRecordError) := by
  have hne : w32 bo ts ++ (w32 bo us ++ (w32 bo cl ++ (w32 bo ol ++ rest))) ≠ [] :=
    w32_ne_nil bo ts _
  have hnle : ¬ (cl ≤ rest.length) := by omega
  have hrec : readRecord bo
      (w32 bo ts ++ (w32 bo us ++ (w32 bo cl ++ (w32 bo ol ++ rest)))) =
      .error .truncatedRecordError := by
    simp only [readRecord, if_neg hne, readU32_w32 bo ts hts, readU32_w32 bo us hus,
      readU32_w32 bo cl hcl, readU32_w32 bo ol hol]
    simp [hnle]
  refine ⟨hrec, ?_⟩
  simp [readFrames, readFramesFuel, hrec]

/-- Witness for C4: a header declaring 5 captured bytes with none
remaining, in each byte order. -/
theorem next_truncated_witness :
    (readRecord .littleEndian
        (w32 .littleEndian 0 ++ (w32 .littleEndian 0 ++
          (w32 .littleEndian 5 ++ (w32 .littleEndian 0 ++ [])))) =
          .error .truncatedRecordError ∧
      readFrames .littleEndian
        (w32 .littleEndian 0 ++ (w32 .littleEndian 0 ++
          (w32 .littleEndian 5 ++ (w32 .littleEndian 0 ++ [])))) =
          ([], some .truncatedRecordError)) ∧
    (readRecord .bigEndian
        (w32 .bigEndian 0 ++ (w32 .bigEndian 0 ++
          (w32 .bigEndian 5 ++ (w32 .bigEndian 0 ++ [])))) =
          .error .truncatedRecordError ∧
      readFrames .bigEndian
        (w32 .bigEndian 0 ++ (w32 .bigEndian 0 ++
          (w32 .bigEndian 5 ++ (w32 .bigEndian 0 ++ [])))) =
          ([], some .truncatedRecordError)) :=
  ⟨next_truncated .littleEndian 0 0 5 0 [] (by decide) (by decide) (by decide)
      (by decide) (by decide),
   next_truncated .bigEndian 0 0 5 0 [] (by decide) (by decide) (by decide)
      (by decide) (by decide)⟩

theorem readRecord_encode (bo : ByteOrder) (fr : RawFrame)
    (h : wellFormedFrame fr) (rest : List Nat) :
    readRecord bo (encodeRecord bo fr ++ rest) = .ok (some (fr, rest)) := by
  obtain ⟨hb, h1, h2, h3, h4⟩ := h
  have hassoc : encodeRecord bo fr ++ rest =
      w32 bo fr.tsSec ++ (w32 bo fr.tsUsec ++ (w32 bo fr.capLen ++
        (w32 bo fr.origLen ++ (fr.bytes ++ rest)))) := by
    simp [encodeRecord, List.append_assoc]
  rw [hassoc]
  have hne : w32 bo fr.tsSec ++ (w32 bo fr.tsUsec ++ (w32 bo fr.capLen ++
      (w32 bo fr.origLen ++ (fr.bytes ++ rest)))) ≠ [] :=
    w32_ne_nil bo fr.tsSec _
  have hle : fr.capLen ≤ (fr.bytes ++ rest).length := by
    simp [hb]
  simp only [readRecord, if_neg hne, readU32_w32 bo fr.tsSec h1,
    readU32_w32 bo fr.tsUsec h2, readU32_w32 bo fr.capLen h3,
    readU32_w32 bo fr.origLen h4, if_pos hle]
  have ht : (fr.bytes ++ rest).take fr.capLen = fr.bytes := by
    rw [hb, List.take_left]
  have hd : (fr.bytes ++ rest).drop fr.capLen = rest := by
    rw [hb, List.drop_left]
  rw [ht, hd]

theorem readFramesFuel_encode (bo : ByteOrder) (frames : List RawFrame)
    (h : ∀ fr ∈ frames, wellFormedFrame fr) :
    ∀ fuel : Nat, frames.length < fuel →
      readFramesFuel bo fuel ((frames.map (encodeRecord bo)).flatten) =
        (frames, none) := by
  induction frames with
  | nil =>
    intro fuel hfuel
    match fuel, hfuel with
    | fuel + 1, _ => simp [readFramesFuel, readRecord]
  | cons fr frames ih =>
    intro fuel hfuel
    match fuel, hfuel with
    | fuel + 1, hfuel =>
      have hwf : wellFormedFrame fr := h fr (by simp)
      have hrec := readRecord_encode bo fr hwf
        ((frames.map (encodeRecord bo)).flatten)
      have ihr := ih (fun fr2 hm => h fr2 (by simp [hm])) fuel (by
        simp at hfuel
        omega)
      simp [readFramesFuel, List.map_cons, List.flatten_cons, hrec, ihr]

theorem encodeRecord_length (bo : ByteOrder) (fr : RawFrame) :
    (encodeRecord bo fr).length = 16 + fr.bytes.length := by
  simp [encodeRecord, w32_length]
  omega

theorem frames_le_flatten_length (bo : ByteOrder) (frames : List RawFrame) :
    frames.length ≤ ((frames.map (encodeRecord bo)).flatten).length := by
  induction frames with
  | nil => simp
  | cons fr frames ih =>
    simp only [List.map_cons, List.flatten_cons, List.length_append,
      List.length_cons, encodeRecord_length]
    omega

theorem openCapture_encode (bo : ByteOrder) (hdrRest : List Nat)
    (frames : List RawFrame) (hh : hdrRest.length = 20) :
    openCapture (encodeCapture bo hdrRest frames) =
      .ok (bo, (frames.map (encodeRecord bo)).flatten) := by
  have hmlen : (magicBytes bo).length = 4 := by
    cases bo <;> simp [magicBytes]
  have hsplit : encodeCapture bo hdrRest frames =
      (magicBytes bo ++ hdrRest) ++ (frames.map (encodeRecord bo)).flatten := by
    simp [encodeCapture, List.append_assoc]
  have hlen24 : (magicBytes bo ++ hdrRest).length = 24 := by
    simp [hmlen, hh]
  have htake : (encodeCapture bo hdrRest frames).take 4 = magicBytes bo := by
    rw [hsplit, List.append_assoc, ← hmlen, List.take_left]
  have hge : 24 ≤ (encodeCapture bo hdrRest frames).length := by
    rw [hsplit, List.length_append, hlen24]
    omega
  have hdrop : (encodeCapture bo hdrRest frames).drop 24 =
      (frames.map (encodeRecord bo)).flatten := by
    rw [hsplit, ← hlen24, List.drop_left]
  cases bo with
  | littleEndian =>
    rw [openCapture, if_pos ⟨htake, hge⟩, hdrop]
  | bigEndian =>
    have hneq : ¬ ((encodeCapture .bigEndian hdrRest frames).take 4 =
        magicBytes .littleEndian ∧
          24 ≤ (encodeCapture .bigEndian hdrRest frames).length) := by
      intro hc
      rw [htake] at hc
      exact absurd hc.1 (by decide)
    rw [openCapture, if_neg hneq, if_pos ⟨htake, hge⟩, hdrop]

/-- C5: a valid capture file of either byte order, encoded from a
well-formed global header and a list of complete records, is read back
exactly: the reader yields precisely the encoded frames in order with no
error, so the number of frames yielded equals the number of complete
records and none is skipped or duplicated. -/
theorem capture_reader_exact (bo : ByteOrder) (hdrRest : List Nat)
    (frames : List RawFrame) (hh : hdrRest.length = 20)
    (h : ∀ fr ∈ frames, wellFormedFrame fr) :
    readCapture (encodeCapture bo hdrRest frames) = (frames, none) ∧
      (readCapture (encodeCapture bo hdrRest frames)).1.length =
        frames.length := by
  have hopen := openCapture_encode bo hdrRest frames hh
  have hread : readFrames bo ((frames.map (encodeRecord bo)).flatten) =
      (frames, none) :=
    readFramesFuel_encode bo frames h _
      (Nat.lt_succ_of_le (frames_le_flatten_length bo frames))
  have : readCapture (encodeCapture bo hdrRest frames) = (frames, none) := by
    rw [readCapture, hopen]
    exact hread
  exact ⟨this, by rw [this]⟩

/-- Witness for C5: a capture holding one empty-payload record, in each
byte order. -/
theorem capture_reader_exact_witness :
    (readCapture (encodeCapture .littleEndian (List.replicate 20 0)
        [⟨1, 2, 0, 0, []⟩]) = ([⟨1, 2, 0, 0, []⟩], none) ∧
      (readCapture (encodeCapture .littleEndian (List.replicate 20 0)
        [⟨1, 2, 0, 0, []⟩])).1.length = ([⟨1, 2, 0, 0, []⟩] : List RawFrame).length) ∧
    (readCapture (encodeCapture .bigEndian (List.replicate 20 0)
        [⟨1, 2, 0, 0, []⟩]) = ([⟨1, 2, 0, 0, []⟩], none) ∧
      (readCapture (encodeCapture .bigEndian (List.replicate 20 0)
        [⟨1, 2, 0, 0, []⟩])).1.length = ([⟨1, 2, 0, 0, []⟩] : List RawFrame).length) :=
  ⟨capture_reader_exact .littleEndian (List.replicate 20 0) [⟨1, 2, 0, 0, []⟩]
      (by decide) (by decide),
   capture_reader_exact .bigEndian (List.replicate 20 0) [⟨1, 2, 0, 0, []⟩]
      (by decide) (by decide)⟩

/-- C7: on every input of fewer than 20 bytes, decodeTransport fails with
shortSegmentError, so no TransportSegment is returned. -/
theorem decodeTransport_short (bs : List Nat) (h : bs.length < 20) :
    decodeTransport bs = .error .shortSegmentError := by
  simp [decodeTransport, h]

/-- Witness for C7 at a concrete 5-byte input. -/
theorem decodeTransport_short_witness :
    decodeTransport [1, 2, 3, 4, 5] = .error .shortSegmentError :=
  decodeTransport_short [1, 2, 3, 4, 5] (by decide)

/-- C6 counterexample: the byte 0x45 followed by 19 more bytes is 20
bytes in total, exactly the declared header length, so decodeNetwork
succeeds on it instead of failing with shortHeaderError as the claim
states. -/
theorem decodeNetwork_twenty_bytes_ok :
    decodeNetwork (69 :: [0, 0, 0, 0, 0, 0, 0, 0, 0, 0, 0, 0, 0, 0, 0, 0, 0, 0, 0]) =
        .ok ⟨4, 20, 0, 0, [0, 0, 0, 0], [0, 0, 0, 0], true, []⟩ ∧
      decodeNetwork (69 :: [0, 0, 0, 0, 0, 0, 0, 0, 0, 0, 0, 0, 0, 0, 0, 0, 0, 0, 0]) ≠
        .error .shortHeaderError := by
  have h : decodeNetwork (69 :: [0, 0, 0, 0, 0, 0, 0, 0, 0, 0, 0, 0, 0, 0, 0, 0, 0, 0, 0]) =
      .ok ⟨4, 20, 0, 0, [0, 0, 0, 0], [0, 0, 0, 0], true, []⟩ := by rfl
  exact ⟨h, by rw [h]; exact fun hc => Except.noConfusion hc⟩

/-- C6 amended: decodeNetwork reads the first byte's high nibble as the
version and its low nibble as the header length in 32-bit words; an
input whose first byte is 0x45 with at most 19 total bytes fails with
shortHeaderError, while the same first byte with 20 or more total bytes
succeeds; a version other than 4 fails with unsupportedVersionError. -/
theorem decodeNetwork_header_rules :
    (∀ (b0 : Nat) (rest : List Nat) (p : NetworkPacket),
        decodeNetwork (b0 :: rest) = .ok p →
          p.version = b0 / 16 ∧ p.headerLen = b0 % 16 * 4) ∧
    (∀ rest : List Nat, rest.length ≤ 18 →
        decodeNetwork (69 :: rest) = .error .shortHeaderError) ∧
    (∀ rest : List Nat, 19 ≤ rest.length →
        ∃ p, decodeNetwork (69 :: rest) = .ok p) ∧
    (∀ (b0 : Nat) (rest : List Nat), b0 / 16 ≠ 4 →
        decodeNetwork (b0 :: rest) = .error .unsupportedVersionError) := by
  have h69 : ¬ ((69 : Nat) / 16 ≠ 4) := by norm_num
  refine ⟨?_, ?_, ?_, ?_⟩
  · intro b0 rest p h
    simp only [decodeNetwork] at h
    split_ifs at h with h1 h2
    all_goals first
      | exact Except.noConfusion h
      | (cases h; exact ⟨rfl, rfl⟩)
  · intro rest hlen
    simp only [decodeNetwork]
    rw [if_neg h69, if_pos]
    simp only [List.length_cons]
    omega
  · intro rest hlen
    have hge : ¬ ((69 :: rest).length < 69 % 16 * 4) := by
      simp only [List.length_cons]
      omega
    cases hdec : decodeNetwork (69 :: rest) with
    | ok p => exact ⟨p, rfl⟩
    | error e =>
      exfalso
      simp only [decodeNetwork] at hdec
      rw [if_neg h69, if_neg hge] at hdec
      exact Except.noConfusion hdec
  · intro b0 rest hv
    simp only [decodeNetwork]
    rw [if_pos hv]

/-- Witness for the amended C6: the empty tail fails short, and a
version-6 first byte fails unsupported. -/
theorem decodeNetwork_header_rules_witness :
    decodeNetwork (69 :: ([] : List Nat)) = .error .shortHeaderError ∧
      decodeNetwork (96 :: ([] : List Nat)) = .error .unsupportedVersionError :=
  ⟨decodeNetwork_header_rules.2.1 [] (by decide),
   decodeNetwork_header_rules.2.2.2 96 [] (by decide)⟩

theorem processFrame_link_eq (raw : RawFrame) :
    (processFrame raw).link = decodeLink raw.bytes := by
  cases hl : decodeLink raw.bytes with
  | error e => simp [processFrame, hl]
  | ok lf =>
    cases hn : decodeNetwork lf.payload with
    | error e => simp [processFrame, hl, hn]
    | ok np =>
      cases ht : decodeTransport np.payload with
      | error e => simp [processFrame, hl, hn, ht]
      | ok ts => simp [processFrame, hl, hn, ht]

theorem processFrame_network_none (raw : RawFrame) (e : DecodeError)
    (hl : decodeLink raw.bytes = .error e) :
    (processFrame raw).network = none := by
  simp [processFrame, hl]

theorem processFrame_network_eq (raw : RawFrame) (lf : LinkFrame)
    (hl : decodeLink raw.bytes = .ok lf) :
    (processFrame raw).network = some (decodeNetwork lf.payload) := by
  cases hn : decodeNetwork lf.payload with
  | error e => simp [processFrame, hl, hn]
  | ok np =>
    cases ht : decodeTransport np.payload with
    | error e => simp [processFrame, hl, hn, ht]
    | ok ts => simp [processFrame, hl, hn, ht]

theorem processFrame_transport_none_link (raw : RawFrame) (e : DecodeError)
    (hl : decodeLink raw.bytes = .error e) :
    (processFrame raw).transport = none := by
  simp [processFrame, hl]

theorem processFrame_transport_none_net (raw : RawFrame) (lf : LinkFrame)
    (e : DecodeError) (hl : decodeLink raw.bytes = .ok lf)
    (hn : decodeNetwork lf.payload = .error e) :
    (processFrame raw).transport = none := by
  simp [processFrame, hl, hn]

theorem processFrame_transport_eq (raw : RawFrame) (lf : LinkFrame)
    (np : NetworkPacket) (hl : decodeLink raw.bytes = .ok lf)
    (hn : decodeNetwork lf.payload = .ok np) :
    (processFrame raw).transport = some (decodeTransport np.payload) := by
  cases ht : decodeTransport np.payload with
  | error e => simp [processFrame, hl, hn, ht]
  | ok ts => simp [processFrame, hl, hn, ht]

/-- C1: processFrame is a total function into FrameResult and records the
outcome of every layer it reaches verbatim: the link entry is exactly the
link decoder's result (so a link failure carries its typed reason and can
never be misreported as success), after a successful link decode the
network entry is exactly the network decoder's result (so a network
failure is recorded with its typed error, never silently swallowed), and
likewise for transport after a successful network decode; layers past a
failure are marked not attempted.  No failure escapes the dispatcher. -/
theorem processFrame_total (raw : RawFrame) :
    (processFrame raw).link = decodeLink raw.bytes ∧
    (∀ e, decodeLink raw.bytes = .error e →
        (processFrame raw).network = none ∧ (processFrame raw).transport = none) ∧
    (∀ lf, decodeLink raw.bytes = .ok lf →
        (processFrame raw).network = some (decodeNetwork lf.payload)) ∧
    (∀ lf e, decodeLink raw.bytes = .ok lf → decodeNetwork lf.payload = .error e →
        (processFrame raw).transport = none) ∧
    (∀ lf np, decodeLink raw.bytes = .ok lf → decodeNetwork lf.payload = .ok np →
        (processFrame raw).transport = some (decodeTransport np.payload)) :=
  ⟨processFrame_link_eq raw,
   fun e he => ⟨processFrame_network_none raw e he,
     processFrame_transport_none_link raw e he⟩,
   fun lf hl => processFrame_network_eq raw lf hl,
   fun lf e hl hn => processFrame_transport_none_net raw lf e hl hn,
   fun lf np hl hn => processFrame_transport_eq raw lf np hl hn⟩

/-- Witness for C1 at the empty raw frame: the link layer fails, so the
later layers are recorded as not attempted, and by the first conjunct the
link entry is the decoder's typed shortFrameError. -/
theorem processFrame_total_witness :
    (processFrame ⟨0, 0, 0, 0, []⟩).network = none ∧
      (processFrame ⟨0, 0, 0, 0, []⟩).transport = none :=
  (processFrame_total ⟨0, 0, 0, 0, []⟩).2.1 .shortFrameError rfl

/-- C8: whenever the link layer decodes, the dispatcher's result exposes
that LinkFrame (with its source and destination addresses), whatever the
network- and transport-layer outcomes on the same frame are. -/
theorem link_result_preserved (raw : RawFrame) (lf : LinkFrame)
    (h : decodeLink raw.bytes = .ok lf) :
    (processFrame raw).link = .ok lf := by
  rw [processFrame_link_eq]
  exact h

/-- Witness for C8: a 14-byte all-zero frame decodes at the link layer
and its LinkFrame appears in the result even though the network layer
fails on the empty payload. -/
theorem link_result_preserved_witness :
    (processFrame ⟨0, 0, 14, 14, [0, 0, 0, 0, 0, 0, 0, 0, 0, 0, 0, 0, 0, 0]⟩).link =
      .ok ⟨[0, 0, 0, 0, 0, 0], [0, 0, 0, 0, 0, 0], 0, []⟩ :=
  link_result_preserved ⟨0, 0, 14, 14, [0, 0, 0, 0, 0, 0, 0, 0, 0, 0, 0, 0, 0, 0]⟩
    ⟨[0, 0, 0, 0, 0, 0], [0, 0, 0, 0, 0, 0], 0, []⟩ rfl

/-- C9: after a successful link decode the dispatcher always attempts the
network layer, and its outcome is a function of the link payload alone,
never of the ether-type; likewise, after a successful network decode the
transport layer is always attempted and its outcome is a function of the
network payload alone, never of the protocol identifier. -/
theorem layers_unconditional (raw : RawFrame) :
    (∀ lf, decodeLink raw.bytes = .ok lf →
        (processFrame raw).network = some (decodeNetwork lf.payload)) ∧
    (∀ lf np, decodeLink raw.bytes = .ok lf → decodeNetwork lf.payload = .ok np →
        (processFrame raw).transport = some (decodeTransport np.payload)) :=
  ⟨fun lf h => processFrame_network_eq raw lf h,
   fun lf np h hn => processFrame_transport_eq raw lf np h hn⟩

/-- Witness for C9: on a 14-byte all-zero frame the network layer is
attempted on the empty payload even though the ether-type is 0 (not an
IP ether-type). -/
theorem layers_unconditional_witness :
    (processFrame ⟨0, 0, 14, 14, [0, 0, 0, 0, 0, 0, 0, 0, 0, 0, 0, 0, 0, 0]⟩).network =
      some (decodeNetwork []) :=
  (layers_unconditional ⟨0, 0, 14, 14, [0, 0, 0, 0, 0, 0, 0, 0, 0, 0, 0, 0, 0, 0]⟩).1
    ⟨[0, 0, 0, 0, 0, 0], [0, 0, 0, 0, 0, 0], 0, []⟩ rfl

/-- C10: a run of the sniffer opens its capture source in read-binary
mode and only reads from it: after the run the file contents are
byte-for-byte the input and the mode is still readBinary. -/
theorem capture_source_unchanged (captureBytes : List Nat) :
    (runSniffer captureBytes).2.contents = captureBytes ∧
      (runSniffer captureBytes).2.mode = .readBinary :=
  ⟨rfl, rfl⟩

end PacketSniffer
